import Mathlib

/-
Verification of the streaming-response protocol server
(source: tests/llm_connector/llm_mock_server.py).

The server is embedded as a small-step interleaving semantics.  Each client
connection is one session; the Python handler loop
(async for message in websocket: await self.handle_message(...)) processes a
session's inbound messages strictly one after another, and a prompt handler
only yields control at its asyncio.sleep calls (the inter-chunk delay of the
streaming loop and the single pre-send delay of the non-streaming path).
Those sleeps are exactly the suspension points of the model: a Task value
records where a session's handler is suspended, and one step of the world
either starts handling the next queued message of an idle session or resumes
a suspended handler up to its next suspension point.  Sends complete
synchronously (mock-sized payloads), matching the specification's statement
that the suspension points are exactly the two delays.
-/

namespace LLMMock

/- Model descriptors, Python lines 26-45 (AVAILABLE_MODELS). -/

structure ModelDescriptor where
  id : String
  name : String
  provider : String
  description : String
deriving DecidableEq

def AVAILABLE_MODELS : List ModelDescriptor :=
  [ { id := "claude-3-opus-20240229", name := "Claude 3 Opus",
      provider := "Anthropic", description := "最も高性能なモデル" },
    { id := "claude-3-sonnet-20240229", name := "Claude 3 Sonnet",
      provider := "Anthropic", description := "バランスの取れたモデル" },
    { id := "claude-3-haiku-20240307", name := "Claude 3 Haiku",
      provider := "Anthropic", description := "最速のモデル" } ]

/- Canned responses, Python lines 48-62 (TEST_RESPONSES). -/

def konnichiwaParts : List String :=
  [ "こんにちは！Max for Liveでの音楽制作のお手伝いができて嬉しいです。何かお手伝いできることはありますか？",
    "音楽制作に関する質問や、Ableton Liveの使い方、音作りのアドバイスなど、お気軽にお聞きください。" ]

def abletonParts : List String :=
  [ "Ableton Liveは、音楽制作とライブパフォーマンスのための人気のあるデジタル・オーディオ・ワークステーション（DAW）です。",
    "主な特徴として、セッションビューとアレンジメントビューの2つの作業環境、内蔵の高品質エフェクトとインストゥルメント、Max for Liveによる拡張性などがあります。",
    "Ableton Liveは、電子音楽制作、ライブパフォーマンス、レコーディング、編集、ミキシングなど、さまざまな音楽制作のワークフローに対応しています。" ]

def defaultParts : List String :=
  [ "ご質問ありがとうございます。Max for Live環境でのお手伝いができて嬉しいです。",
    "音楽制作に関する詳細な情報が必要でしたら、もう少し具体的に教えていただけると助かります。" ]

/- Python lines 183-186: exact-match dictionary lookup with a default entry. -/
def lookupResponse (prompt : String) : List String :=
  if prompt = "こんにちは" then konnichiwaParts
  else if prompt = "Abletonについて教えて" then abletonParts
  else defaultParts

/- One active request, Python lines 171-177.  The stored config dictionary is
   consulted only for its stream flag (line 180); the start_time timestamp is
   never read and is omitted. -/
structure Request where
  clientId : String
  prompt : String
  model : String
  stream : Bool
deriving DecidableEq

/- Outbound messages, Python lines 199-204, 211-216, 245-248, 257-260, 271-275. -/
inductive OutMsg where
  | stream (id content : String) (final : Bool)
  | response (id content : String) (final : Bool)
  | models (ms : List ModelDescriptor)
  | cancelSuccess (message : String)
  | error (code message : String)
deriving DecidableEq

/- Fields read from a prompt request, Python lines 152-157 and 180.
   streamCfg is the stream entry of the config dictionary when present. -/
structure PromptData where
  id : Option String
  promptText : Option String
  model : Option String
  streamCfg : Option Bool
deriving DecidableEq

/- Parse result of an inbound payload, Python lines 123-139: malformed is a
   JSON parse failure; unknownType is a parsed object whose type field is
   missing (none) or none of the three recognized values. -/
inductive ClientMsg where
  | malformed
  | unknownType (ty : Option String)
  | promptMsg (d : PromptData)
  | cancelMsg
  | listModelsMsg
deriving DecidableEq

/- Where a session's handler is suspended: idle (awaiting the next inbound
   message), inside the streaming loop at the inter-chunk sleep of line 207
   (rest = parts not yet emitted), or at the pre-send sleep of line 219. -/
inductive Task where
  | idle
  | streamSleep (reqId : String) (rest : List String)
  | respSleep (reqId : String) (content : String)
deriving DecidableEq

structure Session where
  queue : List ClientMsg
  task : Task
  outbox : List OutMsg
deriving DecidableEq

/- Server state: the clients dictionary (with each connection's pending
   inbound messages and delivered outbound messages), the active_requests
   dictionary as an association list, and a counter feeding generated
   request identifiers (uuid4 stand-in). -/
structure World where
  sessions : List (String × Session)
  active : List (String × Request)
  nextId : Nat
deriving DecidableEq

/- Association-list helpers with Python-dict semantics. -/

def lookupKey {α : Type} : List (String × α) → String → Option α
  | [], _ => none
  | (k, v) :: rest, key => if k = key then some v else lookupKey rest key

def getSession (w : World) (cid : String) : Option Session :=
  lookupKey w.sessions cid

def outboxOf (w : World) (cid : String) : List OutMsg :=
  match getSession w cid with
  | some s => s.outbox
  | none => []

def updSessions (f : Session → Session) : List (String × Session) → String → List (String × Session)
  | [], _ => []
  | (k, s) :: rest, cid =>
      if k = cid then (k, f s) :: updSessions f rest cid
      else (k, s) :: updSessions f rest cid

def sendTo (w : World) (cid : String) (m : OutMsg) : World :=
  { w with sessions := updSessions (fun s => { s with outbox := s.outbox ++ [m] }) w.sessions cid }

def setTask (w : World) (cid : String) (t : Task) : World :=
  { w with sessions := updSessions (fun s => { s with task := t }) w.sessions cid }

def setQueue (w : World) (cid : String) (q : List ClientMsg) : World :=
  { w with sessions := updSessions (fun s => { s with queue := q }) w.sessions cid }

/- active_requests operations: membership test (req_id in self.active_requests),
   lookup, dict assignment (replace the entry when the key is present, append
   otherwise), and deletion. -/

def hasReq : List (String × Request) → String → Bool
  | [], _ => false
  | (k, _) :: rest, rid => if k = rid then true else hasReq rest rid

def lookupReq (a : List (String × Request)) (rid : String) : Option Request :=
  lookupKey a rid

def setReq : List (String × Request) → String → Request → List (String × Request)
  | [], rid, r => [(rid, r)]
  | (k, v) :: rest, rid, r =>
      if k = rid then (rid, r) :: rest else (k, v) :: setReq rest rid r

def delReq : List (String × Request) → String → List (String × Request)
  | [], _ => []
  | (k, v) :: rest, rid =>
      if k = rid then delReq rest rid else (k, v) :: delReq rest rid

/- Python lines 233-234: the request ids owned by one client, in dict order. -/
def ownedReqs : List (String × Request) → String → List String
  | [], _ => []
  | (k, r) :: rest, cid =>
      if r.clientId = cid then k :: ownedReqs rest cid else ownedReqs rest cid

/- Python lines 159-164: linear scan of AVAILABLE_MODELS for the id. -/
def modelExists (model : String) : Bool :=
  AVAILABLE_MODELS.any (fun m => m.id == model)

/- handle_cancel, Python lines 226-249, as a pure function of the active set:
   the new active set together with the single reply message. -/
def handleCancelCore (a : List (String × Request)) (cid : String) :
    List (String × Request) × OutMsg :=
  let reqsToCancel := ownedReqs a cid
  if reqsToCancel = [] then
    (a, OutMsg.error "no_active_request" "No active request to cancel")
  else
    (List.foldl delReq a reqsToCancel,
     OutMsg.cancelSuccess "Request cancelled successfully")

def handleCancel (w : World) (cid : String) : World :=
  let res := handleCancelCore w.active cid
  sendTo { w with active := res.1 } cid res.2

/- handle_list_models, Python lines 251-261. -/
def handleListModels (w : World) (cid : String) : World :=
  sendTo w cid (OutMsg.models AVAILABLE_MODELS)

/- One iteration of the streaming loop, Python lines 189-207, entered with
   the parts not yet emitted.  An empty list means the loop is over: run the
   cleanup of lines 222-224 and return to the message loop.  Otherwise
   re-check membership in the active set (lines 193-196; on removal, return
   with no cleanup), send the chunk with its final flag (true exactly on the
   last part), and suspend at the inter-chunk sleep. -/
def streamStep (w : World) (cid : String) (reqId : String) : List String → World
  | [] =>
      let w2 : World :=
        { w with active := if hasReq w.active reqId then delReq w.active reqId else w.active }
      setTask w2 cid Task.idle
  | q :: rest =>
      if hasReq w.active reqId then
        setTask (sendTo w cid (OutMsg.stream reqId q rest.isEmpty)) cid
          (Task.streamSleep reqId rest)
      else
        setTask w cid Task.idle

/- handle_prompt, Python lines 144-224, up to its first suspension point.
   The uuid4 default argument of data.get is evaluated on every call, so the
   generator counter advances whether or not the client supplied an id. -/
def handlePrompt (w : World) (cid : String) (d : PromptData) : World :=
  let reqId := d.id.getD ("uuid-" ++ toString w.nextId)
  let w1 : World := { w with nextId := w.nextId + 1 }
  let prompt := d.promptText.getD ""
  let model := d.model.getD "claude-3-sonnet-20240229"
  if modelExists model then
    let w2 : World :=
      { w1 with active :=
          (setReq w1.active reqId ⟨cid, prompt, model, d.streamCfg.getD true⟩) }
    let parts := lookupResponse prompt
    if d.streamCfg.getD true then
      streamStep w2 cid reqId parts
    else
      setTask w2 cid (Task.respSleep reqId (String.intercalate " " parts))
  else
    sendTo w1 cid (OutMsg.error "unknown_model" ("Unknown model: " ++ model))

/- Resuming a suspended handler after its sleep.  The non-streaming path
   (Python lines 208-224) sends the concatenated response unconditionally --
   the source performs no existence check there -- then runs the cleanup. -/
def resumeTask (w : World) (cid : String) : Task → World
  | Task.idle => w
  | Task.streamSleep reqId rest => streamStep w cid reqId rest
  | Task.respSleep reqId content =>
      let w2 := sendTo w cid (OutMsg.response reqId content true)
      let w3 : World :=
        { w2 with active :=
            if hasReq w2.active reqId then delReq w2.active reqId else w2.active }
      setTask w3 cid Task.idle

/- handle_message dispatch, Python lines 116-142. -/
def handleMessage (w : World) (cid : String) : ClientMsg → World
  | ClientMsg.malformed =>
      sendTo w cid (OutMsg.error "invalid_json" "Invalid JSON format")
  | ClientMsg.unknownType ty =>
      sendTo w cid (OutMsg.error "unknown_request_type"
        ("Unknown request type: " ++ ty.getD "undefined"))
  | ClientMsg.promptMsg d => handlePrompt w cid d
  | ClientMsg.cancelMsg => handleCancel w cid
  | ClientMsg.listModelsMsg => handleListModels w cid

/- One scheduling step of the named session: an idle session with a queued
   inbound message starts handling it (the per-connection message loop of
   lines 100-101 hands messages to handle_message one at a time); a suspended
   session resumes its handler; anything else is a no-op. -/
def step (w : World) (cid : String) : World :=
  match getSession w cid with
  | none => w
  | some s =>
    match s.task with
    | Task.idle =>
      match s.queue with
      | [] => w
      | m :: q => handleMessage (setQueue w cid q) cid m
    | t => resumeTask w cid t

/- Run a schedule: the sequence of session names picked by the event loop. -/
def run (w : World) (sched : List String) : World :=
  List.foldl step w sched

/- An initial world with a single connected session and its inbound traffic. -/
def oneSession (q : List ClientMsg) : World :=
  { sessions := [("A", { queue := q, task := Task.idle, outbox := [] })],
    active := [], nextId := 0 }

/- The chunk sequence the streaming loop produces for a parts list: one
   stream message per part, final set exactly on the last part. -/
def chunkMsgs (rid : String) : List String → List OutMsg
  | [] => []
  | q :: rest => OutMsg.stream rid q rest.isEmpty :: chunkMsgs rid rest

/- Two clients that both submit a non-streaming prompt under the same
   client-supplied request id r1 (the id-collision policy of spec section 9
   makes the second registration silently replace the first). -/
def twoClientWorld : World :=
  { sessions :=
      [("A", ⟨[ClientMsg.promptMsg ⟨some "r1", some "x", none, some false⟩], Task.idle, []⟩),
       ("B", ⟨[ClientMsg.promptMsg ⟨some "r1", some "y", none, some false⟩], Task.idle, []⟩)],
    active := [], nextId := 0 }

def isStreamMsg : OutMsg → Bool
  | OutMsg.stream _ _ _ => true
  | _ => false

def isFinalStreamMsg : OutMsg → Bool
  | OutMsg.stream _ _ f => f
  | _ => false

def isErrorMsg : OutMsg → Bool
  | OutMsg.error _ _ => true
  | _ => false

/- ------------------------------------------------------------------ -/
/- Theorems. -/

theorem run_cons (w : World) (c : String) (cs : List String) :
    run w (c :: cs) = run (step w c) cs := rfl

theorem sendTo_active (w : World) (cid : String) (m : OutMsg) :
    (sendTo w cid m).active = w.active := rfl

theorem setTask_active (w : World) (cid : String) (t : Task) :
    (setTask w cid t).active = w.active := rfl

theorem setQueue_active (w : World) (cid : String) (q : List ClientMsg) :
    (setQueue w cid q).active = w.active := rfl

theorem lookupKey_updSessions_self (f : Session → Session) (ss : List (String × Session))
    (cid : String) :
    lookupKey (updSessions f ss cid) cid = (lookupKey ss cid).map f := by
  induction ss with
  | nil => rfl
  | cons p rest ih =>
      obtain ⟨k, s⟩ := p
      by_cases hk : k = cid
      · simp [updSessions, lookupKey, hk]
      · simp [updSessions, lookupKey, hk, ih]

theorem lookupKey_updSessions_ne (f : Session → Session) (ss : List (String × Session))
    (cid cid2 : String) (h : cid2 ≠ cid) :
    lookupKey (updSessions f ss cid) cid2 = lookupKey ss cid2 := by
  induction ss with
  | nil => rfl
  | cons p rest ih =>
      obtain ⟨k, s⟩ := p
      by_cases hk : k = cid
      · have hcc : ¬ (cid = cid2) := fun hx => h hx.symm
        simp [updSessions, lookupKey, hk, hcc, ih]
      · by_cases hk2 : k = cid2 <;> simp [updSessions, lookupKey, hk, hk2, h, ih]

theorem getSession_sendTo_self (w : World) (cid : String) (m : OutMsg) (s : Session)
    (hs : getSession w cid = some s) :
    getSession (sendTo w cid m) cid = some { s with outbox := s.outbox ++ [m] } := by
  unfold getSession sendTo
  rw [lookupKey_updSessions_self]
  unfold getSession at hs
  rw [hs]
  rfl

theorem getSession_setTask_self (w : World) (cid : String) (t : Task) (s : Session)
    (hs : getSession w cid = some s) :
    getSession (setTask w cid t) cid = some { s with task := t } := by
  unfold getSession setTask
  rw [lookupKey_updSessions_self]
  unfold getSession at hs
  rw [hs]
  rfl

theorem getSession_setQueue_self (w : World) (cid : String) (q : List ClientMsg) (s : Session)
    (hs : getSession w cid = some s) :
    getSession (setQueue w cid q) cid = some { s with queue := q } := by
  unfold getSession setQueue
  rw [lookupKey_updSessions_self]
  unfold getSession at hs
  rw [hs]
  rfl

theorem getSession_sendTo_ne (w : World) (cid cid2 : String) (m : OutMsg) (h : cid2 ≠ cid) :
    getSession (sendTo w cid m) cid2 = getSession w cid2 := by
  unfold getSession sendTo
  exact lookupKey_updSessions_ne _ _ _ _ h

theorem outboxOf_sendTo_self (w : World) (cid : String) (m : OutMsg) (s : Session)
    (hs : getSession w cid = some s) :
    outboxOf (sendTo w cid m) cid = outboxOf w cid ++ [m] := by
  unfold outboxOf
  rw [getSession_sendTo_self w cid m s hs, hs]

theorem outboxOf_setTask (w : World) (cid cid2 : String) (t : Task) :
    outboxOf (setTask w cid t) cid2 = outboxOf w cid2 := by
  unfold outboxOf getSession setTask
  by_cases h : cid2 = cid
  · rw [h, lookupKey_updSessions_self]
    cases lookupKey w.sessions cid <;> rfl
  · rw [lookupKey_updSessions_ne _ _ _ _ h]

theorem hasReq_delReq_self (a : List (String × Request)) (rid : String) :
    hasReq (delReq a rid) rid = false := by
  induction a with
  | nil => rfl
  | cons p rest ih =>
      obtain ⟨k, v⟩ := p
      by_cases hk : k = rid <;> simp [delReq, hasReq, hk, ih]

/-- Claim C1 (status corrected), amended: resuming a session suspended at the
non-streaming pre-send delay emits the response message unconditionally, with
no existence check against the active set (unlike the streaming path); the
request id is absent from the active set afterwards because of the post-send
cleanup. -/
theorem C1_amended_no_existence_check (w : World) (cid reqId content : String) (s : Session)
    (hs : getSession w cid = some s) (ht : s.task = Task.respSleep reqId content) :
    outboxOf (step w cid) cid = outboxOf w cid ++ [OutMsg.response reqId content true] ∧
    hasReq (step w cid).active reqId = false := by
  have hstep : step w cid = resumeTask w cid (Task.respSleep reqId content) := by
    simp [step, hs, ht]
  rw [hstep]
  refine ⟨?_, ?_⟩
  · simp only [resumeTask, outboxOf_setTask]
    exact outboxOf_sendTo_self w cid _ s hs
  · simp only [resumeTask, setTask_active, sendTo_active]
    by_cases hh : hasReq w.active reqId = true
    · simp only [hh, if_true]
      exact hasReq_delReq_self _ _
    · simp only [Bool.not_eq_true] at hh
      simp [hh]

/-- Witness for the amended C1 theorem at a concrete world. -/
theorem C1_amended_witness :
    outboxOf (step ⟨[("A", ⟨[], Task.respSleep "r" "c", []⟩)], [], 0⟩ "A") "A" =
      outboxOf ⟨[("A", ⟨[], Task.respSleep "r" "c", []⟩)], [], 0⟩ "A" ++
        [OutMsg.response "r" "c" true] ∧
    hasReq (step ⟨[("A", ⟨[], Task.respSleep "r" "c", []⟩)], [], 0⟩ "A").active "r" = false :=
  C1_amended_no_existence_check ⟨[("A", ⟨[], Task.respSleep "r" "c", []⟩)], [], 0⟩
    "A" "r" "c" ⟨[], Task.respSleep "r" "c", []⟩ rfl rfl

/-- Claim C4: a prompt whose model matches no registry entry yields exactly one
error reply with code unknown_model naming the received model id, adds nothing
to the active set, changes no session task, and emits no stream or response
message for the submission. -/
theorem C4_unknown_model (w : World) (cid : String) (s : Session) (d : PromptData)
    (hs : getSession w cid = some s)
    (hm : modelExists (d.model.getD "claude-3-sonnet-20240229") = false) :
    (handlePrompt w cid d).active = w.active ∧
    outboxOf (handlePrompt w cid d) cid =
      outboxOf w cid ++ [OutMsg.error "unknown_model"
        ("Unknown model: " ++ d.model.getD "claude-3-sonnet-20240229")] ∧
    (getSession (handlePrompt w cid d) cid).map Session.task = some s.task := by
  have hw1 : getSession { w with nextId := w.nextId + 1 } cid = some s := hs
  simp only [handlePrompt]
  rw [hm]
  simp only [Bool.false_eq_true, if_false]
  refine ⟨rfl, ?_, ?_⟩
  · have h1 := outboxOf_sendTo_self { w with nextId := w.nextId + 1 } cid
      (OutMsg.error "unknown_model"
        ("Unknown model: " ++ d.model.getD "claude-3-sonnet-20240229")) s hw1
    rw [h1]
    rfl
  · rw [getSession_sendTo_self { w with nextId := w.nextId + 1 } cid _ s hw1]
    rfl

/-- Witness for C4 at a concrete world and unknown model id. -/
theorem C4_witness :
    (handlePrompt (oneSession []) "A" ⟨none, some "x", some "not-a-model", none⟩).active =
      (oneSession []).active ∧
    outboxOf (handlePrompt (oneSession []) "A" ⟨none, some "x", some "not-a-model", none⟩) "A" =
      outboxOf (oneSession []) "A" ++
        [OutMsg.error "unknown_model" ("Unknown model: " ++
          (some "not-a-model").getD "claude-3-sonnet-20240229")] ∧
    (getSession (handlePrompt (oneSession []) "A"
        ⟨none, some "x", some "not-a-model", none⟩) "A").map Session.task =
      some Task.idle :=
  C4_unknown_model (oneSession []) "A" ⟨[], Task.idle, []⟩
    ⟨none, some "x", some "not-a-model", none⟩ rfl (by decide)

/-- Claim C6: an unparseable payload yields exactly one invalid_json error to
the originating session with no other state change, and a parsed message whose
type is missing or unrecognized yields exactly one unknown_request_type error
naming the received type value (undefined when missing). -/
theorem C6_parse_and_dispatch_errors (w : World) (cid : String) (s : Session)
    (hs : getSession w cid = some s) :
    ((handleMessage w cid ClientMsg.malformed).active = w.active ∧
     (handleMessage w cid ClientMsg.malformed).nextId = w.nextId ∧
     (getSession (handleMessage w cid ClientMsg.malformed) cid).map Session.task = some s.task ∧
     (∀ cid2 : String, cid2 ≠ cid →
        getSession (handleMessage w cid ClientMsg.malformed) cid2 = getSession w cid2) ∧
     outboxOf (handleMessage w cid ClientMsg.malformed) cid =
       outboxOf w cid ++ [OutMsg.error "invalid_json" "Invalid JSON format"]) ∧
    (∀ ty : Option String,
     (handleMessage w cid (ClientMsg.unknownType ty)).active = w.active ∧
     (getSession (handleMessage w cid (ClientMsg.unknownType ty)) cid).map Session.task =
       some s.task ∧
     outboxOf (handleMessage w cid (ClientMsg.unknownType ty)) cid =
       outboxOf w cid ++ [OutMsg.error "unknown_request_type"
         ("Unknown request type: " ++ ty.getD "undefined")]) := by
  constructor
  · refine ⟨rfl, rfl, ?_, ?_, ?_⟩
    · rw [show handleMessage w cid ClientMsg.malformed =
          sendTo w cid (OutMsg.error "invalid_json" "Invalid JSON format") from rfl]
      rw [getSession_sendTo_self w cid _ s hs]
      rfl
    · intro cid2 h2
      exact getSession_sendTo_ne w cid cid2 _ h2
    · exact outboxOf_sendTo_self w cid _ s hs
  · intro ty
    refine ⟨rfl, ?_, ?_⟩
    · rw [show handleMessage w cid (ClientMsg.unknownType ty) =
          sendTo w cid (OutMsg.error "unknown_request_type"
            ("Unknown request type: " ++ ty.getD "undefined")) from rfl]
      rw [getSession_sendTo_self w cid _ s hs]
      rfl
    · exact outboxOf_sendTo_self w cid _ s hs

/-- Witness for C6 at a concrete world, with a concrete unknown type value. -/
theorem C6_witness :
    outboxOf (handleMessage (oneSession []) "A" (ClientMsg.unknownType (some "ping"))) "A" =
      outboxOf (oneSession []) "A" ++ [OutMsg.error "unknown_request_type"
        ("Unknown request type: " ++ (some "ping").getD "undefined")] :=
  ((C6_parse_and_dispatch_errors (oneSession []) "A" ⟨[], Task.idle, []⟩ rfl).2
    (some "ping")).2.2

/-- Claim C7: list_models always replies with the same fixed registry of 3
model descriptors in the same order, mutates no server state, and two
consecutive calls deliver identical results. -/
theorem C7_list_models_idempotent (w : World) (cid : String) (s : Session)
    (hs : getSession w cid = some s) :
    (handleListModels w cid).active = w.active ∧
    (handleListModels w cid).nextId = w.nextId ∧
    (getSession (handleListModels w cid) cid).map Session.task = some s.task ∧
    outboxOf (handleListModels w cid) cid = outboxOf w cid ++ [OutMsg.models AVAILABLE_MODELS] ∧
    outboxOf (handleListModels (handleListModels w cid) cid) cid =
      outboxOf w cid ++ [OutMsg.models AVAILABLE_MODELS, OutMsg.models AVAILABLE_MODELS] ∧
    AVAILABLE_MODELS.length = 3 := by
  have h2 : getSession (handleListModels w cid) cid =
      some { s with outbox := s.outbox ++ [OutMsg.models AVAILABLE_MODELS] } :=
    getSession_sendTo_self w cid _ s hs
  refine ⟨rfl, rfl, ?_, ?_, ?_, rfl⟩
  · rw [show handleListModels w cid = sendTo w cid (OutMsg.models AVAILABLE_MODELS) from rfl]
    rw [getSession_sendTo_self w cid _ s hs]
    rfl
  · exact outboxOf_sendTo_self w cid _ s hs
  · have h3 := outboxOf_sendTo_self (handleListModels w cid) cid
      (OutMsg.models AVAILABLE_MODELS) _ h2
    have h4 : outboxOf (handleListModels w cid) cid =
        outboxOf w cid ++ [OutMsg.models AVAILABLE_MODELS] :=
      outboxOf_sendTo_self w cid (OutMsg.models AVAILABLE_MODELS) s hs
    calc outboxOf (handleListModels (handleListModels w cid) cid) cid
        = outboxOf (handleListModels w cid) cid ++ [OutMsg.models AVAILABLE_MODELS] := h3
      _ = (outboxOf w cid ++ [OutMsg.models AVAILABLE_MODELS]) ++
            [OutMsg.models AVAILABLE_MODELS] := by rw [h4]
      _ = outboxOf w cid ++ [OutMsg.models AVAILABLE_MODELS, OutMsg.models AVAILABLE_MODELS] := by
            rw [List.append_assoc]
            rfl

/-- Witness for C7 at a concrete world. -/
theorem C7_witness :
    outboxOf (handleListModels (oneSession []) "A") "A" =
      outboxOf (oneSession []) "A" ++ [OutMsg.models AVAILABLE_MODELS] :=
  (C7_list_models_idempotent (oneSession []) "A" ⟨[], Task.idle, []⟩ rfl).2.2.2.1

theorem lookupResponse_ne_nil (p : String) : lookupResponse p ≠ [] := by
  unfold lookupResponse
  split
  · simp [konnichiwaParts]
  · split
    · simp [abletonParts]
    · simp [defaultParts]

theorem delReq_eq_filter (a : List (String × Request)) (rid : String) :
    delReq a rid = a.filter (fun p => !(decide (p.1 = rid))) := by
  induction a with
  | nil => rfl
  | cons p rest ih =>
      obtain ⟨k, v⟩ := p
      by_cases hk : k = rid <;> simp [delReq, hk, ih, List.filter_cons]

theorem foldl_delReq (ids : List String) : ∀ a : List (String × Request),
    List.foldl delReq a ids = a.filter (fun p => !(decide (p.1 ∈ ids))) := by
  induction ids with
  | nil =>
      intro a
      simp
  | cons i ids ih =>
      intro a
      rw [List.foldl_cons, ih, delReq_eq_filter, List.filter_filter]
      apply List.filter_congr
      intro x _
      by_cases h1 : x.1 = i <;> by_cases h2 : x.1 ∈ ids <;>
        simp [h1, h2, List.mem_cons]

theorem keyInj {a : List (String × Request)} (h : (a.map Prod.fst).Nodup)
    {k : String} {r r2 : Request} (h1 : (k, r) ∈ a) (h2 : (k, r2) ∈ a) : r = r2 := by
  induction a with
  | nil => cases h1
  | cons p rest ih =>
      rw [List.map_cons, List.nodup_cons] at h
      rcases List.mem_cons.mp h1 with e1 | m1
      · rcases List.mem_cons.mp h2 with e2 | m2
        · rw [← e1] at e2
          exact ((Prod.mk.injEq _ _ _ _).mp e2).2.symm
        · exfalso
          apply h.1
          have hp1 : p.1 = k := by rw [← e1]
          rw [hp1]
          exact List.mem_map_of_mem Prod.fst m2
      · rcases List.mem_cons.mp h2 with e2 | m2
        · exfalso
          apply h.1
          have hp1 : p.1 = k := by rw [← e2]
          rw [hp1]
          exact List.mem_map_of_mem Prod.fst m1
        · exact ih h.2 m1 m2

theorem mem_ownedReqs (a : List (String × Request)) (cid k : String) :
    k ∈ ownedReqs a cid ↔ ∃ r : Request, (k, r) ∈ a ∧ r.clientId = cid := by
  induction a with
  | nil => simp [ownedReqs]
  | cons p rest ih =>
      obtain ⟨k0, r0⟩ := p
      by_cases hc : r0.clientId = cid
      · simp only [ownedReqs, if_pos hc, List.mem_cons, ih, Prod.mk.injEq]
        constructor
        · rintro (he | ⟨r, hr, hrc⟩)
          · exact ⟨r0, Or.inl ⟨he, rfl⟩, hc⟩
          · exact ⟨r, Or.inr hr, hrc⟩
        · rintro ⟨r, he | hr, hrc⟩
          · exact Or.inl he.1
          · exact Or.inr ⟨r, hr, hrc⟩
      · simp only [ownedReqs, if_neg hc, ih, List.mem_cons, Prod.mk.injEq]
        constructor
        · rintro ⟨r, hr, hrc⟩
          exact ⟨r, Or.inr hr, hrc⟩
        · rintro ⟨r, he | hr, hrc⟩
          · exact absurd (he.2 ▸ hrc) hc
          · exact ⟨r, hr, hrc⟩

theorem handleCancelCore_no_owned (a : List (String × Request)) (cid : String)
    (h : ownedReqs a cid = []) :
    handleCancelCore a cid =
      (a, OutMsg.error "no_active_request" "No active request to cancel") := by
  simp [handleCancelCore, h]

theorem handleCancelCore_removes_owned (a : List (String × Request)) (cid : String)
    (hnd : (a.map Prod.fst).Nodup) (h : ¬ ownedReqs a cid = []) :
    handleCancelCore a cid =
      (a.filter (fun p => !(decide (p.2.clientId = cid))),
       OutMsg.cancelSuccess "Request cancelled successfully") := by
  simp only [handleCancelCore, if_neg h]
  rw [foldl_delReq]
  refine congrArg (fun x => (x, OutMsg.cancelSuccess "Request cancelled successfully")) ?_
  apply List.filter_congr
  intro x hx
  by_cases hc : x.2.clientId = cid
  · have hmem : x.1 ∈ ownedReqs a cid := by
      rw [mem_ownedReqs]
      exact ⟨x.2, by simpa using hx, hc⟩
    simp [hmem, hc]
  · have hmem : x.1 ∉ ownedReqs a cid := by
      rw [mem_ownedReqs]
      rintro ⟨r, hr, hrc⟩
      have hrx : r = x.2 := keyInj hnd hr (by simpa using hx)
      exact hc (hrx ▸ hrc)
    simp [hmem, hc]

/-- Claim C5: a cancel from a session with no owned active request yields a
no_active_request error and leaves the active set unchanged; otherwise every
active request owned by that session is removed, requests of other sessions
are untouched, and the session receives exactly one cancel_success message. -/
theorem C5_cancel_semantics (w : World) (cid : String) (s : Session)
    (hs : getSession w cid = some s)
    (hnd : (w.active.map Prod.fst).Nodup) :
    (ownedReqs w.active cid = [] →
       (handleCancel w cid).active = w.active ∧
       outboxOf (handleCancel w cid) cid =
         outboxOf w cid ++ [OutMsg.error "no_active_request" "No active request to cancel"]) ∧
    (ownedReqs w.active cid ≠ [] →
       (handleCancel w cid).active =
         w.active.filter (fun p => !(decide (p.2.clientId = cid))) ∧
       outboxOf (handleCancel w cid) cid =
         outboxOf w cid ++ [OutMsg.cancelSuccess "Request cancelled successfully"]) := by
  constructor
  · intro h
    have hc := handleCancelCore_no_owned w.active cid h
    constructor
    · show (sendTo { w with active := (handleCancelCore w.active cid).1 } cid
          (handleCancelCore w.active cid).2).active = w.active
      rw [sendTo_active, hc]
    · show outboxOf (sendTo { w with active := (handleCancelCore w.active cid).1 } cid
          (handleCancelCore w.active cid).2) cid = _
      rw [hc]
      exact outboxOf_sendTo_self _ cid _ s hs
  · intro h
    have hc := handleCancelCore_removes_owned w.active cid hnd h
    constructor
    · show (sendTo { w with active := (handleCancelCore w.active cid).1 } cid
          (handleCancelCore w.active cid).2).active = _
      rw [sendTo_active, hc]
    · show outboxOf (sendTo { w with active := (handleCancelCore w.active cid).1 } cid
          (handleCancelCore w.active cid).2) cid = _
      rw [hc]
      exact outboxOf_sendTo_self _ cid _ s hs

/-- Witness for C5: one owned active request is removed and acknowledged. -/
theorem C5_witness :
    (handleCancel ⟨[("A", ⟨[], Task.idle, []⟩)], [("r1", ⟨"A", "p", "m", true⟩)], 0⟩ "A").active =
      ([("r1", (⟨"A", "p", "m", true⟩ : Request))]).filter
        (fun p => !(decide (p.2.clientId = "A"))) ∧
    outboxOf (handleCancel ⟨[("A", ⟨[], Task.idle, []⟩)],
        [("r1", ⟨"A", "p", "m", true⟩)], 0⟩ "A") "A" =
      outboxOf ⟨[("A", ⟨[], Task.idle, []⟩)], [("r1", ⟨"A", "p", "m", true⟩)], 0⟩ "A" ++
        [OutMsg.cancelSuccess "Request cancelled successfully"] :=
  (C5_cancel_semantics ⟨[("A", ⟨[], Task.idle, []⟩)], [("r1", ⟨"A", "p", "m", true⟩)], 0⟩
    "A" ⟨[], Task.idle, []⟩ rfl (by decide)).2 (by decide)

theorem lookupKey_setReq_self (a : List (String × Request)) (rid : String) (r : Request) :
    lookupKey (setReq a rid r) rid = some r := by
  induction a with
  | nil => simp [setReq, lookupKey]
  | cons p rest ih =>
      obtain ⟨k, v⟩ := p
      by_cases hk : k = rid <;> simp [setReq, lookupKey, hk, ih]

theorem hasReq_setReq_self (a : List (String × Request)) (rid : String) (r : Request) :
    hasReq (setReq a rid r) rid = true := by
  induction a with
  | nil => simp [setReq, hasReq]
  | cons p rest ih =>
      obtain ⟨k, v⟩ := p
      by_cases hk : k = rid <;> simp [setReq, hasReq, hk, ih]

theorem mem_keys_setReq {a : List (String × Request)} {rid x : String} (r : Request)
    (h : x ∈ (setReq a rid r).map Prod.fst) : x ∈ a.map Prod.fst ∨ x = rid := by
  induction a with
  | nil =>
      simp [setReq] at h
      exact Or.inr h
  | cons p rest ih =>
      obtain ⟨k, v⟩ := p
      by_cases hk : k = rid
      · simp only [setReq, if_pos hk, List.map_cons, List.mem_cons] at h
        rcases h with h | h
        · exact Or.inr h
        · exact Or.inl (by simp [List.mem_cons, h])
      · simp only [setReq, if_neg hk, List.map_cons, List.mem_cons] at h
        rcases h with h | h
        · exact Or.inl (by simp [List.mem_cons, h])
        · rcases ih h with h2 | h2
          · exact Or.inl (by simp [List.mem_cons, h2])
          · exact Or.inr h2

theorem nodup_keys_setReq {a : List (String × Request)} {rid : String} {r : Request}
    (h : (a.map Prod.fst).Nodup) : ((setReq a rid r).map Prod.fst).Nodup := by
  induction a with
  | nil => simp [setReq]
  | cons p rest ih =>
      obtain ⟨k, v⟩ := p
      rw [List.map_cons, List.nodup_cons] at h
      by_cases hk : k = rid
      · rw [show setReq ((k, v) :: rest) rid r = (rid, r) :: rest from by simp [setReq, hk]]
        rw [List.map_cons, List.nodup_cons]
        exact ⟨hk ▸ h.1, h.2⟩
      · rw [show setReq ((k, v) :: rest) rid r = (k, v) :: setReq rest rid r from by
            simp [setReq, hk]]
        rw [List.map_cons, List.nodup_cons]
        refine ⟨?_, ih h.2⟩
        intro hmem
        rcases mem_keys_setReq r hmem with h2 | h2
        · exact h.1 h2
        · exact hk h2

theorem mem_keys_delReq {a : List (String × Request)} {rid x : String}
    (h : x ∈ (delReq a rid).map Prod.fst) : x ∈ a.map Prod.fst := by
  induction a with
  | nil => simp [delReq] at h
  | cons p rest ih =>
      obtain ⟨k, v⟩ := p
      by_cases hk : k = rid
      · simp only [delReq, if_pos hk] at h
        simp only [List.map_cons, List.mem_cons]
        exact Or.inr (ih h)
      · simp only [delReq, if_neg hk, List.map_cons, List.mem_cons] at h
        rcases h with h | h
        · simp [List.mem_cons, h]
        · simp only [List.map_cons, List.mem_cons]
          exact Or.inr (ih h)

theorem nodup_keys_delReq {a : List (String × Request)} {rid : String}
    (h : (a.map Prod.fst).Nodup) : ((delReq a rid).map Prod.fst).Nodup := by
  induction a with
  | nil => simp [delReq]
  | cons p rest ih =>
      obtain ⟨k, v⟩ := p
      rw [List.map_cons, List.nodup_cons] at h
      by_cases hk : k = rid
      · rw [show delReq ((k, v) :: rest) rid = delReq rest rid from by simp [delReq, hk]]
        exact ih h.2
      · rw [show delReq ((k, v) :: rest) rid = (k, v) :: delReq rest rid from by
            simp [delReq, hk]]
        rw [List.map_cons, List.nodup_cons]
        exact ⟨fun hmem => h.1 (mem_keys_delReq hmem), ih h.2⟩

theorem nodup_keys_foldl_delReq (ids : List String) :
    ∀ a : List (String × Request), (a.map Prod.fst).Nodup →
      ((List.foldl delReq a ids).map Prod.fst).Nodup := by
  induction ids with
  | nil => intro a h; exact h
  | cons i ids ih =>
      intro a h
      rw [List.foldl_cons]
      exact ih _ (nodup_keys_delReq h)

theorem nodup_streamStep {w : World} (cid reqId : String) (parts : List String)
    (h : (w.active.map Prod.fst).Nodup) :
    ((streamStep w cid reqId parts).active.map Prod.fst).Nodup := by
  cases parts with
  | nil =>
      simp only [streamStep, setTask_active]
      split
      · exact nodup_keys_delReq h
      · exact h
  | cons q rest =>
      simp only [streamStep]
      split
      · simpa [setTask_active, sendTo_active] using h
      · simpa [setTask_active] using h

theorem nodup_handlePrompt {w : World} (cid : String) (d : PromptData)
    (h : (w.active.map Prod.fst).Nodup) :
    ((handlePrompt w cid d).active.map Prod.fst).Nodup := by
  simp only [handlePrompt]
  split
  · split
    · exact nodup_streamStep _ _ _ (nodup_keys_setReq h)
    · simpa [setTask_active] using nodup_keys_setReq h
  · simpa [sendTo_active] using h

theorem nodup_handleCancel {w : World} (cid : String)
    (h : (w.active.map Prod.fst).Nodup) :
    ((handleCancel w cid).active.map Prod.fst).Nodup := by
  simp only [handleCancel, sendTo_active, handleCancelCore]
  split
  · exact h
  · exact nodup_keys_foldl_delReq _ _ h

theorem nodup_resumeTask {w : World} (cid : String) (t : Task)
    (h : (w.active.map Prod.fst).Nodup) :
    ((resumeTask w cid t).active.map Prod.fst).Nodup := by
  cases t with
  | idle => exact h
  | streamSleep reqId rest => exact nodup_streamStep _ _ _ h
  | respSleep reqId content =>
      simp only [resumeTask, setTask_active, sendTo_active]
      split
      · exact nodup_keys_delReq h
      · exact h

theorem nodup_handleMessage {w : World} (cid : String) (m : ClientMsg)
    (h : (w.active.map Prod.fst).Nodup) :
    ((handleMessage w cid m).active.map Prod.fst).Nodup := by
  cases m with
  | malformed => simpa [handleMessage, sendTo_active] using h
  | unknownType ty => simpa [handleMessage, sendTo_active] using h
  | promptMsg d => exact nodup_handlePrompt _ _ h
  | cancelMsg => exact nodup_handleCancel _ h
  | listModelsMsg => simpa [handleMessage, handleListModels, sendTo_active] using h

theorem nodup_step {w : World} (cid : String)
    (h : (w.active.map Prod.fst).Nodup) :
    ((step w cid).active.map Prod.fst).Nodup := by
  unfold step
  split
  · exact h
  · split
    · split
      · exact h
      · exact nodup_handleMessage _ _ (by simpa [setQueue_active] using h)
    · exact nodup_resumeTask _ _ h

theorem handlePrompt_overwrites (w : World) (cid : String) (s : Session) (rid : String)
    (r0 : Request) (d : PromptData)
    (hs : getSession w cid = some s)
    (hid : d.id = some rid)
    (_hr0 : lookupReq w.active rid = some r0)
    (hm : modelExists (d.model.getD "claude-3-sonnet-20240229") = true) :
    lookupReq (handlePrompt w cid d).active rid =
      some ⟨cid, d.promptText.getD "", d.model.getD "claude-3-sonnet-20240229",
            d.streamCfg.getD true⟩ ∧
    (∃ extra : List OutMsg,
      outboxOf (handlePrompt w cid d) cid = outboxOf w cid ++ extra ∧
      ∀ m ∈ extra, isErrorMsg m = false) := by
  obtain ⟨q, rest, hqr⟩ := List.exists_cons_of_ne_nil
    (lookupResponse_ne_nil (d.promptText.getD ""))
  simp only [handlePrompt, hid, Option.getD_some, hm, if_true, hqr]
  by_cases hstream : d.streamCfg.getD true = true
  · rw [if_pos hstream]
    simp only [streamStep]
    rw [if_pos]
    · constructor
      · simp only [setTask_active, sendTo_active]
        exact lookupKey_setReq_self _ _ _
      · refine ⟨[OutMsg.stream rid q rest.isEmpty], ?_, ?_⟩
        · rw [outboxOf_setTask]
          exact outboxOf_sendTo_self _ cid _ s hs
        · intro m hm2
          rw [List.mem_singleton] at hm2
          rw [hm2]
          rfl
    · exact hasReq_setReq_self _ _ _
  · rw [if_neg hstream]
    constructor
    · simp only [setTask_active]
      exact lookupKey_setReq_self _ _ _
    · refine ⟨[], ?_, ?_⟩
      · rw [outboxOf_setTask, List.append_nil]
        rfl
      · intro m hm2
        cases hm2

/-- Claim C9: a prompt whose resolved request id already names an active entry
is accepted with no error reply, the entry is silently overwritten with the
new registration, and every scheduler step preserves uniqueness of request
identifiers in the active set. -/
theorem C9_overwrite_and_unique_ids :
    (∀ (w : World) (cid : String) (s : Session) (rid : String) (r0 : Request) (d : PromptData),
      getSession w cid = some s →
      d.id = some rid →
      lookupReq w.active rid = some r0 →
      modelExists (d.model.getD "claude-3-sonnet-20240229") = true →
      lookupReq (handlePrompt w cid d).active rid =
        some ⟨cid, d.promptText.getD "", d.model.getD "claude-3-sonnet-20240229",
              d.streamCfg.getD true⟩ ∧
      (∃ extra : List OutMsg,
        outboxOf (handlePrompt w cid d) cid = outboxOf w cid ++ extra ∧
        ∀ m ∈ extra, isErrorMsg m = false)) ∧
    (∀ (w : World) (cid : String), (w.active.map Prod.fst).Nodup →
      ((step w cid).active.map Prod.fst).Nodup) :=
  ⟨fun w cid s rid r0 d hs hid hr0 hm =>
     handlePrompt_overwrites w cid s rid r0 d hs hid hr0 hm,
   fun _ cid h => nodup_step cid h⟩

/-- Witness for C9: overwriting a colliding request id at a concrete world,
and key uniqueness preserved by a concrete step. -/
theorem C9_witness :
    lookupReq (handlePrompt ⟨[("A", ⟨[], Task.idle, []⟩)],
        [("r1", ⟨"A", "old", "m", true⟩)], 0⟩ "A"
        ⟨some "r1", some "x", none, some false⟩).active "r1" =
      some ⟨"A", "x", "claude-3-sonnet-20240229", false⟩ ∧
    ((step ⟨[("A", ⟨[], Task.idle, []⟩)], [("r1", ⟨"A", "old", "m", true⟩)], 0⟩
        "A").active.map Prod.fst).Nodup :=
  ⟨(C9_overwrite_and_unique_ids.1 ⟨[("A", ⟨[], Task.idle, []⟩)],
      [("r1", ⟨"A", "old", "m", true⟩)], 0⟩ "A" ⟨[], Task.idle, []⟩ "r1"
      ⟨"A", "old", "m", true⟩ ⟨some "r1", some "x", none, some false⟩
      rfl rfl rfl (by decide)).1,
   C9_overwrite_and_unique_ids.2 ⟨[("A", ⟨[], Task.idle, []⟩)],
      [("r1", ⟨"A", "old", "m", true⟩)], 0⟩ "A" (by decide)⟩

theorem chunkMsgs_countP_stream (rid : String) (parts : List String) :
    (chunkMsgs rid parts).countP isStreamMsg = parts.length := by
  induction parts with
  | nil => rfl
  | cons q rest ih => simp [chunkMsgs, List.countP_cons, isStreamMsg, ih]

theorem chunkMsgs_countP_final (rid : String) :
    ∀ parts : List String, parts ≠ [] →
      (chunkMsgs rid parts).countP isFinalStreamMsg = 1
  | [], h => absurd rfl h
  | [q], _ => by simp [chunkMsgs, List.countP_cons, isFinalStreamMsg]
  | q :: q2 :: rest, _ => by
      have ih := chunkMsgs_countP_final rid (q2 :: rest) (by simp)
      rw [show chunkMsgs rid (q :: q2 :: rest) =
          OutMsg.stream rid q (q2 :: rest).isEmpty :: chunkMsgs rid (q2 :: rest) from rfl]
      rw [List.countP_cons, ih]
      rfl

theorem chunkMsgs_getLast (rid : String) :
    ∀ parts : List String,
      (chunkMsgs rid parts).getLast? = parts.getLast?.map (fun c => OutMsg.stream rid c true)
  | [] => rfl
  | [q] => rfl
  | q :: q2 :: rest => by
      have ih := chunkMsgs_getLast rid (q2 :: rest)
      show (OutMsg.stream rid q (q2 :: rest).isEmpty ::
          OutMsg.stream rid q2 rest.isEmpty :: chunkMsgs rid rest).getLast? = _
      rw [List.getLast?_cons_cons]
      rw [show (OutMsg.stream rid q2 rest.isEmpty :: chunkMsgs rid rest) =
          chunkMsgs rid (q2 :: rest) from rfl]
      rw [ih, List.getLast?_cons_cons]

theorem loop_run (parts : List String) :
    ∀ (prev : List OutMsg) (r : Request) (n : Nat),
      run ⟨[("A", ⟨[], Task.streamSleep "r1" parts, prev⟩)], [("r1", r)], n⟩
          (List.replicate (parts.length + 1) "A") =
        ⟨[("A", ⟨[], Task.idle, prev ++ chunkMsgs "r1" parts⟩)], [], n⟩ := by
  induction parts with
  | nil =>
      intro prev r n
      simp [run, List.replicate, step, getSession, lookupKey, resumeTask, streamStep,
            hasReq, delReq, setTask, updSessions, chunkMsgs]
  | cons q rest ih =>
      intro prev r n
      rw [show (q :: rest).length + 1 = (rest.length + 1) + 1 from rfl]
      rw [List.replicate_succ, run_cons]
      have hstep : step (⟨[("A", ⟨[], Task.streamSleep "r1" (q :: rest), prev⟩)],
          [("r1", r)], n⟩ : World) "A" =
          ⟨[("A", ⟨[], Task.streamSleep "r1" rest,
              prev ++ [OutMsg.stream "r1" q rest.isEmpty]⟩)], [("r1", r)], n⟩ := by
        simp [step, getSession, lookupKey, resumeTask, streamStep, hasReq, sendTo,
              setTask, updSessions]
      rw [hstep, ih]
      simp [chunkMsgs]

/-- Claim C3: a streaming prompt submission that runs to completion without
cancellation emits exactly one stream message per part of the selected body,
carrying the parts in order, with final true exactly on the last chunk, which
is the last message delivered; on completion the request leaves the active
set. -/
theorem C3_streaming_completion (p : String) :
    outboxOf (run (oneSession [ClientMsg.promptMsg ⟨some "r1", some p, none, none⟩])
        ("A" :: List.replicate (lookupResponse p).length "A")) "A" =
      chunkMsgs "r1" (lookupResponse p) ∧
    (run (oneSession [ClientMsg.promptMsg ⟨some "r1", some p, none, none⟩])
        ("A" :: List.replicate (lookupResponse p).length "A")).active = [] ∧
    (chunkMsgs "r1" (lookupResponse p)).countP isStreamMsg = (lookupResponse p).length ∧
    (chunkMsgs "r1" (lookupResponse p)).countP isFinalStreamMsg = 1 ∧
    (chunkMsgs "r1" (lookupResponse p)).getLast? =
      (lookupResponse p).getLast?.map (fun c => OutMsg.stream "r1" c true) := by
  obtain ⟨q, rest, hqr⟩ := List.exists_cons_of_ne_nil (lookupResponse_ne_nil p)
  have hm : modelExists "claude-3-sonnet-20240229" = true := by decide
  have hstep : step (oneSession [ClientMsg.promptMsg ⟨some "r1", some p, none, none⟩]) "A" =
      ⟨[("A", ⟨[], Task.streamSleep "r1" rest, [OutMsg.stream "r1" q rest.isEmpty]⟩)],
       [("r1", ⟨"A", p, "claude-3-sonnet-20240229", true⟩)], 1⟩ := by
    simp [step, oneSession, getSession, lookupKey, handleMessage, setQueue, updSessions,
          handlePrompt, hm, hqr, streamStep, hasReq, setReq, sendTo, setTask]
  have hrun : run (oneSession [ClientMsg.promptMsg ⟨some "r1", some p, none, none⟩])
      ("A" :: List.replicate (lookupResponse p).length "A") =
      ⟨[("A", ⟨[], Task.idle,
          [OutMsg.stream "r1" q rest.isEmpty] ++ chunkMsgs "r1" rest⟩)], [], 1⟩ := by
    rw [run_cons, hstep, hqr]
    rw [show (q :: rest).length = rest.length + 1 from rfl]
    exact loop_run rest [OutMsg.stream "r1" q rest.isEmpty]
      ⟨"A", p, "claude-3-sonnet-20240229", true⟩ 1
  refine ⟨?_, ?_, ?_, ?_, ?_⟩
  · rw [hrun, hqr]
    simp [outboxOf, getSession, lookupKey, chunkMsgs]
  · rw [hrun]
  · exact chunkMsgs_countP_stream _ _
  · exact chunkMsgs_countP_final _ _ (lookupResponse_ne_nil p)
  · exact chunkMsgs_getLast _ _

/-- Claim C2 (status code_bug): the per-connection message loop awaits the
prompt handler to completion, so a cancel sent right after a streaming prompt
is only handled after every chunk has been delivered and the request removed.
Running the model on that exact traffic, the session receives both stream
chunks and then an error with code no_active_request, not a cancel_success
that suppresses pending chunks. -/
theorem C2_cancel_after_streaming_prompt :
    outboxOf (run (oneSession [ClientMsg.promptMsg ⟨none, some "こんにちは", none, none⟩,
        ClientMsg.cancelMsg]) ["A", "A", "A", "A"]) "A" =
      chunkMsgs "uuid-0" konnichiwaParts ++
        [OutMsg.error "no_active_request" "No active request to cancel"] := by
  decide

/-- Claim C8: the response body is selected by exact match of the prompt text
against the fixed table with a default fallback, and the konnichiwa scenario
with default streaming yields exactly 2 stream messages, final set on the
second chunk only. -/
theorem C8_lookup_table_and_scenario :
    lookupResponse "こんにちは" = konnichiwaParts ∧
    lookupResponse "Abletonについて教えて" = abletonParts ∧
    (∀ p : String, p ≠ "こんにちは" → p ≠ "Abletonについて教えて" →
      lookupResponse p = defaultParts) ∧
    konnichiwaParts.length = 2 ∧
    outboxOf (run (oneSession [ClientMsg.promptMsg
        ⟨none, some "こんにちは", some "claude-3-sonnet-20240229", none⟩]) ["A", "A", "A"]) "A" =
      chunkMsgs "uuid-0" konnichiwaParts ∧
    (chunkMsgs "uuid-0" konnichiwaParts).map isFinalStreamMsg = [false, true] := by
  refine ⟨rfl, rfl, ?_, rfl, by decide, by decide⟩
  intro p h1 h2
  simp [lookupResponse, h1, h2]

/-- Witness for C8: a prompt matching no table key selects the default body. -/
theorem C8_witness : lookupResponse "hello" = defaultParts :=
  C8_lookup_table_and_scenario.2.2.1 "hello" (by decide) (by decide)

/-- Claim C10: a prompt message omitting the model field defaults to
claude-3-sonnet-20240229, which passes validation, and an omitted prompt
defaults to the empty string, selecting the default canned body; the request
proceeds to a normal streaming reply with no error. -/
theorem C10_omitted_fields_default :
    (run (oneSession [ClientMsg.promptMsg ⟨none, none, none, none⟩]) ["A"]).active =
      [("uuid-0", ⟨"A", "", "claude-3-sonnet-20240229", true⟩)] ∧
    outboxOf (run (oneSession [ClientMsg.promptMsg ⟨none, none, none, none⟩])
        ["A", "A", "A"]) "A" = chunkMsgs "uuid-0" defaultParts ∧
    (chunkMsgs "uuid-0" defaultParts).all (fun m => !(isErrorMsg m)) = true := by
  decide

/-- Claim C1 (status corrected): counterexample run.  Client A submits a
non-streaming prompt under id r1; client B submits a prompt under the same id,
which silently replaces the registration; B finishes and its cleanup removes
r1 from the active set while A is still suspended at its pre-send delay.  When
A resumes, the single-shot path sends the response message anyway: it performs
no existence check against the active set before sending. -/
theorem C1_counterexample :
    (run twoClientWorld ["A", "B", "B"]).active = [] ∧
    (getSession (run twoClientWorld ["A", "B", "B"]) "A").map Session.task =
      some (Task.respSleep "r1" (String.intercalate " " defaultParts)) ∧
    outboxOf (run twoClientWorld ["A", "B", "B", "A"]) "A" =
      [OutMsg.response "r1" (String.intercalate " " defaultParts) true] := by
  decide

end LLMMock
